import Mathlib

/-!
Shallow embedding of the persistence and reconciliation layer of
src/STP_planner.py (a Streamlit activity-timeline manager), together with
theorems settling the frozen claims about that layer.

Conventions of the embedding:
* Python date objects become the structure `Date` (year, month, day) with the
  lexicographic order that Python date comparison uses.
* Python datetime objects become `DateTime` (a `Date` plus hour, minute,
  second; sub-second precision never survives the fixed format strings).
* `datetime.strptime(s, fmt)` / `strftime` for the two fixed patterns
  `%Y-%m-%d` and `%Y-%m-%d %H:%M:%S` become `parseDate` / `formatDate` and
  `parseDateTime` / `formatDateTime`, working on the character list of the
  string.  Parsing returns `Option` (failure = the ValueError raised by
  strptime); validity of the calendar date mirrors the checks of the
  `datetime` constructor (month range, day-in-month range with Gregorian
  leap years, year 1..9999).
* Streamlit session state is passed explicitly: each handler becomes a
  function from the current collection (plus the inputs the widget layer
  supplies, including the freshly drawn uuid and the current clock reading)
  to the new collection, paired with a success flag where the handler can
  show an error message instead of mutating.
-/

namespace STP

/-- A Python `datetime.date`: a calendar date. -/
structure Date where
  year : Nat
  month : Nat
  day : Nat
deriving DecidableEq, Repr

/-- A Python `datetime.datetime`, at the second precision that the fixed
format string `%Y-%m-%d %H:%M:%S` preserves. -/
structure DateTime where
  date : Date
  hour : Nat
  minute : Nat
  second : Nat
deriving DecidableEq, Repr

/-- Python date comparison `a <= b`: lexicographic on (year, month, day). -/
def dateLe (a b : Date) : Prop :=
  a.year < b.year ∨ (a.year = b.year ∧
    (a.month < b.month ∨ (a.month = b.month ∧ a.day ≤ b.day)))

instance (a b : Date) : Decidable (dateLe a b) := by
  unfold dateLe; exact inferInstance

/-- Python date comparison `a < b`: strict lexicographic order. -/
def dateLt (a b : Date) : Prop :=
  a.year < b.year ∨ (a.year = b.year ∧
    (a.month < b.month ∨ (a.month = b.month ∧ a.day < b.day)))

instance (a b : Date) : Decidable (dateLt a b) := by
  unfold dateLt; exact inferInstance

theorem dateLe_refl (a : Date) : dateLe a a := by
  unfold dateLe; omega

theorem dateLe_trans {a b c : Date} (h1 : dateLe a b) (h2 : dateLe b c) :
    dateLe a c := by
  unfold dateLe at *; omega

theorem dateLe_total (a b : Date) : dateLe a b ∨ dateLe b a := by
  unfold dateLe; omega

theorem not_dateLe_iff {a b : Date} : ¬ dateLe a b ↔ dateLt b a := by
  unfold dateLe dateLt; omega

theorem dateLe_of_eq {a b : Date} (h : a = b) : dateLe a b := h ▸ dateLe_refl a

/-! ## DateCodec -/

/-- One decimal digit character (the formatting direction of strftime). -/
def digitChar : Nat → Char
  | 0 => '0' | 1 => '1' | 2 => '2' | 3 => '3' | 4 => '4'
  | 5 => '5' | 6 => '6' | 7 => '7' | 8 => '8' | _ => '9'

/-- Numeric value of a digit character (the parsing direction of strptime). -/
def charDigit (c : Char) : Nat := c.toNat - 48

/-- Whether a character is one of the ten decimal digits. -/
def isDigitChar (c : Char) : Bool :=
  decide (48 ≤ c.toNat) && decide (c.toNat ≤ 57)

/-- Decimal digit characters of `n`, most significant first, for `n ≤ fuel`
(structural recursion on the fuel; `natChars` instantiates the fuel). -/
def natCharsAux : Nat → Nat → List Char
  | 0, _ => []
  | _ + 1, 0 => []
  | fuel + 1, n + 1 =>
    natCharsAux fuel ((n + 1) / 10) ++ [digitChar ((n + 1) % 10)]

/-- Decimal digit characters of `n`, most significant first (empty for 0). -/
def natChars (n : Nat) : List Char := natCharsAux n n

/-- Left-pad a character block with zeros to width `w` (the `%m`, `%d`,
`%H`, `%M`, `%S` directives zero-pad to width 2). -/
def padChars (w : Nat) (l : List Char) : List Char :=
  List.replicate (w - l.length) '0' ++ l

/-- A number rendered zero-padded to width 2. -/
def pad2 (n : Nat) : List Char := padChars 2 (natChars n)

/-- A number rendered zero-padded to width 4 (the year field). -/
def pad4 (n : Nat) : List Char := padChars 4 (natChars n)

/-- Rendering of `strftime("%Y-%m-%d")` on a date. -/
def formatDate (d : Date) : String :=
  ⟨pad4 d.year ++ '-' :: (pad2 d.month ++ '-' :: pad2 d.day)⟩

/-- Rendering of `strftime("%Y-%m-%d %H:%M:%S")` on a datetime. -/
def formatDateTime (t : DateTime) : String :=
  ⟨(formatDate t.date).data ++ ' ' ::
    (pad2 t.hour ++ ':' :: (pad2 t.minute ++ ':' :: pad2 t.second))⟩

/-- Gregorian leap-year rule used by the Python datetime module. -/
def isLeap (y : Nat) : Bool :=
  (y % 4 == 0 && y % 100 != 0) || y % 400 == 0

/-- Number of days of a month, as validated by the datetime constructor. -/
def daysInMonth (y m : Nat) : Nat :=
  if m = 2 then (if isLeap y then 29 else 28)
  else if m = 4 ∨ m = 6 ∨ m = 9 ∨ m = 11 then 30 else 31

/-- The dates the Python datetime module accepts: year 1..9999, valid month
and day-of-month. -/
def validDate (d : Date) : Prop :=
  1 ≤ d.year ∧ d.year ≤ 9999 ∧ 1 ≤ d.month ∧ d.month ≤ 12 ∧
    1 ≤ d.day ∧ d.day ≤ daysInMonth d.year d.month

instance : DecidablePred validDate := fun d => by
  unfold validDate; exact inferInstance

/-- The datetimes the Python datetime module accepts (at second precision). -/
def validDateTime (t : DateTime) : Prop :=
  validDate t.date ∧ t.hour ≤ 23 ∧ t.minute ≤ 59 ∧ t.second ≤ 59

instance : DecidablePred validDateTime := fun t => by
  unfold validDateTime; exact inferInstance

/-- Read a nonempty all-digit character block as a number (one numeric field
of strptime). -/
def readNat (l : List Char) : Option Nat :=
  if l = [] then none
  else if l.all isDigitChar then
    some (l.foldl (fun a c => 10 * a + charDigit c) 0)
  else none

/-- Split a character list on a separator character; `n` separators produce
`n + 1` groups, matching how strptime consumes the literal separators of
the format string. -/
def splitOnChar (sep : Char) : List Char → List (List Char)
  | [] => [[]]
  | c :: rest =>
    match splitOnChar sep rest with
    | [] => [[c]]
    | g :: gs => if c = sep then [] :: g :: gs else (c :: g) :: gs

/-- Parsing of `datetime.strptime(s, "%Y-%m-%d").date()`: three dash-separated numeric
fields forming a valid calendar date. -/
def parseDate (s : String) : Option Date :=
  match splitOnChar '-' s.data with
  | [ys, ms, ds] =>
    match readNat ys, readNat ms, readNat ds with
    | some y, some m, some d =>
      if validDate ⟨y, m, d⟩ then some ⟨y, m, d⟩ else none
    | _, _, _ => none
  | _ => none

/-- Parsing of `datetime.strptime(s, "%Y-%m-%d %H:%M:%S")`: a date part and a
colon-separated time part, separated by one space. -/
def parseDateTime (s : String) : Option DateTime :=
  match splitOnChar ' ' s.data with
  | [dpart, tpart] =>
    match parseDate ⟨dpart⟩, splitOnChar ':' tpart with
    | some d, [hs, ms, ss] =>
      match readNat hs, readNat ms, readNat ss with
      | some h, some mi, some sec =>
        if h ≤ 23 ∧ mi ≤ 59 ∧ sec ≤ 59 then some ⟨d, h, mi, sec⟩ else none
      | _, _, _ => none
    | _, _ => none
  | _ => none

/-! ### Round-trip lemmas for the codec -/

theorem charDigit_digitChar {k : Nat} (h : k < 10) :
    charDigit (digitChar k) = k := by
  interval_cases k <;> rfl

theorem isDigitChar_digitChar (k : Nat) : isDigitChar (digitChar k) = true := by
  rcases k with _|_|_|_|_|_|_|_|_|k <;> rfl

theorem ne_of_isDigitChar {c sep : Char} (hc : isDigitChar c = true)
    (hsep : isDigitChar sep = false) : c ≠ sep := by
  intro h; rw [h, hsep] at hc; cases hc

theorem foldl_natCharsAux (fuel : Nat) :
    ∀ n a, n ≤ fuel →
      List.foldl (fun a c => 10 * a + charDigit c) a (natCharsAux fuel n) =
        a * 10 ^ (natCharsAux fuel n).length + n := by
  induction fuel with
  | zero =>
    intro n a hn
    have h0 : n = 0 := Nat.le_zero.mp hn
    subst h0; simp [natCharsAux]
  | succ fuel ih =>
    intro n a hn
    match n with
    | 0 => simp [natCharsAux]
    | n + 1 =>
      have hdiv : (n + 1) / 10 ≤ fuel := by
        have := Nat.div_le_self (n + 1) 10
        have h2 : (n + 1) / 10 < n + 1 := Nat.div_lt_self (Nat.succ_pos n) (by omega)
        omega
      have hmod : (n + 1) % 10 < 10 := Nat.mod_lt _ (by omega)
      rw [natCharsAux, List.foldl_append, ih _ a hdiv]
      simp only [List.foldl_cons, List.foldl_nil, List.length_append,
        List.length_singleton]
      rw [charDigit_digitChar hmod, pow_succ]
      have := Nat.div_add_mod (n + 1) 10
      ring_nf
      omega

theorem mem_natCharsAux {fuel n : Nat} {c : Char} (h : c ∈ natCharsAux fuel n) :
    isDigitChar c = true := by
  induction fuel generalizing n with
  | zero => simp [natCharsAux] at h
  | succ fuel ih =>
    match n with
    | 0 => simp [natCharsAux] at h
    | n + 1 =>
      rw [natCharsAux, List.mem_append] at h
      rcases h with h | h
      · exact ih h
      · rw [List.mem_singleton] at h
        rw [h]; exact isDigitChar_digitChar _

theorem mem_padChars {w : Nat} {l : List Char} {c : Char}
    (hl : ∀ x ∈ l, isDigitChar x = true) (h : c ∈ padChars w l) :
    isDigitChar c = true := by
  rw [padChars, List.mem_append] at h
  rcases h with h | h
  · rw [List.eq_of_mem_replicate h]; rfl
  · exact hl c h

theorem padChars_ne_nil {w : Nat} (hw : 1 ≤ w) (l : List Char) :
    padChars w l ≠ [] := by
  intro heq
  have hlen := congrArg List.length heq
  simp only [padChars, List.length_append, List.length_replicate,
    List.length_nil] at hlen
  omega

theorem foldl_replicate_zero (k : Nat) (rest : List Char) :
    List.foldl (fun a c => 10 * a + charDigit c) 0
      (List.replicate k '0' ++ rest) =
    List.foldl (fun a c => 10 * a + charDigit c) 0 rest := by
  induction k with
  | zero => rfl
  | succ k ih => simpa [List.replicate_succ] using ih

theorem readNat_pad {w : Nat} (hw : 1 ≤ w) (n : Nat) :
    readNat (padChars w (natChars n)) = some n := by
  rw [readNat, if_neg (padChars_ne_nil hw (natChars n))]
  rw [if_pos]
  · congr 1
    rw [padChars, foldl_replicate_zero, natChars,
      foldl_natCharsAux n n 0 (le_refl n)]
    omega
  · rw [List.all_eq_true]
    intro c hc
    exact mem_padChars (fun x hx => mem_natCharsAux hx) hc

theorem splitOnChar_ne_nil (sep : Char) (l : List Char) :
    splitOnChar sep l ≠ [] := by
  cases l with
  | nil => simp [splitOnChar]
  | cons c rest =>
    rw [splitOnChar]
    match h : splitOnChar sep rest with
    | [] => simp
    | g :: gs =>
      by_cases hc : c = sep <;> simp [hc]

theorem splitOnChar_of_no_sep {sep : Char} {l : List Char}
    (h : ∀ c ∈ l, c ≠ sep) : splitOnChar sep l = [l] := by
  induction l with
  | nil => rfl
  | cons c rest ih =>
    have hrest : splitOnChar sep rest = [rest] :=
      ih (fun x hx => h x (List.mem_cons_of_mem c hx))
    rw [splitOnChar, hrest]
    simp [h c (List.mem_cons_self c rest)]

theorem splitOnChar_append {sep : Char} (a b : List Char)
    (h : ∀ c ∈ a, c ≠ sep) :
    splitOnChar sep (a ++ sep :: b) = a :: splitOnChar sep b := by
  induction a with
  | nil =>
    rw [List.nil_append, splitOnChar]
    match hb : splitOnChar sep b with
    | [] => exact absurd hb (splitOnChar_ne_nil sep b)
    | g :: gs => simp
  | cons c a ih =>
    have hc : c ≠ sep := h c (List.mem_cons_self c a)
    have ha : splitOnChar sep (a ++ sep :: b) = a :: splitOnChar sep b :=
      ih (fun x hx => h x (List.mem_cons_of_mem c hx))
    rw [List.cons_append, splitOnChar, ha]
    simp [hc]

theorem mem_pad2_digit {n : Nat} {c : Char} (h : c ∈ pad2 n) :
    isDigitChar c = true :=
  mem_padChars (fun x hx => mem_natCharsAux hx) h

theorem mem_pad4_digit {n : Nat} {c : Char} (h : c ∈ pad4 n) :
    isDigitChar c = true :=
  mem_padChars (fun x hx => mem_natCharsAux hx) h

/-- Round trip for the date codec: parsing a formatted valid date recovers
the date. -/
theorem parseDate_formatDate {d : Date} (h : validDate d) :
    parseDate (formatDate d) = some d := by
  have hsplit :
      splitOnChar '-' (formatDate d).data =
        [pad4 d.year, pad2 d.month, pad2 d.day] := by
    show splitOnChar '-'
        (pad4 d.year ++ '-' :: (pad2 d.month ++ '-' :: pad2 d.day)) = _
    rw [splitOnChar_append _ _
      (fun c hc => ne_of_isDigitChar (mem_pad4_digit hc) (by decide))]
    rw [splitOnChar_append _ _
      (fun c hc => ne_of_isDigitChar (mem_pad2_digit hc) (by decide))]
    rw [splitOnChar_of_no_sep
      (fun c hc => ne_of_isDigitChar (mem_pad2_digit hc) (by decide))]
  simp only [parseDate, hsplit, pad4, pad2,
    readNat_pad (show (1:Nat) ≤ 4 by omega),
    readNat_pad (show (1:Nat) ≤ 2 by omega)]
  show (if validDate d then some d else none) = some d
  rw [if_pos h]

theorem mem_formatDate_ne_space {d : Date} :
    ∀ c ∈ (formatDate d).data, c ≠ ' ' := by
  intro c hc
  have hc2 : c ∈ pad4 d.year ++ '-' :: (pad2 d.month ++ '-' :: pad2 d.day) :=
    hc
  simp only [List.mem_append, List.mem_cons] at hc2
  rcases hc2 with h4 | hdash | h2 | hdash | h2
  · exact ne_of_isDigitChar (mem_pad4_digit h4) (by decide)
  · rw [hdash]; decide
  · exact ne_of_isDigitChar (mem_pad2_digit h2) (by decide)
  · rw [hdash]; decide
  · exact ne_of_isDigitChar (mem_pad2_digit h2) (by decide)

/-- Round trip for the datetime codec: parsing a formatted valid datetime
recovers the datetime. -/
theorem parseDateTime_formatDateTime {t : DateTime} (h : validDateTime t) :
    parseDateTime (formatDateTime t) = some t := by
  obtain ⟨hd, hh, hm, hs⟩ := h
  have hsplit :
      splitOnChar ' ' (formatDateTime t).data =
        [(formatDate t.date).data,
          pad2 t.hour ++ ':' :: (pad2 t.minute ++ ':' :: pad2 t.second)] := by
    show splitOnChar ' '
        ((formatDate t.date).data ++ ' ' ::
          (pad2 t.hour ++ ':' :: (pad2 t.minute ++ ':' :: pad2 t.second))) = _
    rw [splitOnChar_append _ _ mem_formatDate_ne_space]
    rw [splitOnChar_of_no_sep]
    intro c hc
    simp only [List.mem_append, List.mem_cons] at hc
    rcases hc with h2 | hcolon | h2 | hcolon | h2
    · exact ne_of_isDigitChar (mem_pad2_digit h2) (by decide)
    · rw [hcolon]; decide
    · exact ne_of_isDigitChar (mem_pad2_digit h2) (by decide)
    · rw [hcolon]; decide
    · exact ne_of_isDigitChar (mem_pad2_digit h2) (by decide)
  have htime :
      splitOnChar ':'
        (pad2 t.hour ++ ':' :: (pad2 t.minute ++ ':' :: pad2 t.second)) =
        [pad2 t.hour, pad2 t.minute, pad2 t.second] := by
    rw [splitOnChar_append _ _
      (fun c hc => ne_of_isDigitChar (mem_pad2_digit hc) (by decide))]
    rw [splitOnChar_append _ _
      (fun c hc => ne_of_isDigitChar (mem_pad2_digit hc) (by decide))]
    rw [splitOnChar_of_no_sep
      (fun c hc => ne_of_isDigitChar (mem_pad2_digit hc) (by decide))]
  have hmk : (⟨(formatDate t.date).data⟩ : String) = formatDate t.date := rfl
  simp only [parseDateTime, hsplit, hmk, parseDate_formatDate hd, htime]
  simp only [pad2, readNat_pad (show (1:Nat) ≤ 2 by omega)]
  show (if t.hour ≤ 23 ∧ t.minute ≤ 59 ∧ t.second ≤ 59 then some t else none)
    = some t
  rw [if_pos ⟨hh, hm, hs⟩]

/-! ## Data model

An activity record as held in memory by the session (`st.session_state.activities`):
date fields are date objects, `created_at` is a datetime object. -/

structure Activity where
  id : String
  name : String
  start_date : Date
  end_date : Date
  category : String
  priority : String
  description : String
  created_at : DateTime
deriving DecidableEq, Repr

/-- An activity record as stored in the JSON file: every field a string,
dates under `%Y-%m-%d`, the creation stamp under `%Y-%m-%d %H:%M:%S`. -/
structure RawActivity where
  id : String
  name : String
  start_date : String
  end_date : String
  category : String
  priority : String
  description : String
  created_at : String
deriving DecidableEq, Repr

/-! ## PersistenceAdapter: load_activities / save_activities -/

/-- Field conversion applied to one stored record inside the loop of
`load_activities`: the three `strptime` calls.  `none` when any of them
raises ValueError. -/
def parseActivity (r : RawActivity) : Option Activity :=
  match parseDate r.start_date, parseDate r.end_date,
      parseDateTime r.created_at with
  | some s, some e, some c =>
    some { id := r.id, name := r.name, start_date := s, end_date := e,
           category := r.category, priority := r.priority,
           description := r.description, created_at := c }
  | _, _, _ => none

/-- All-or-nothing traversal: the effect of running a fallible step for each
element inside one try/except block.  `none` as soon as any element fails. -/
def traverseOpt (f : α → Option β) : List α → Option (List β)
  | [] => some []
  | x :: xs =>
    match f x, traverseOpt f xs with
    | some y, some ys => some (y :: ys)
    | _, _ => none

/-- Function `load_activities` (src/STP_planner.py lines 47-62): the whole
string-to-date conversion loop runs inside a single try/except
(json.JSONDecodeError, KeyError, ValueError); on any failure the handler
shows an error and returns the empty list, so the entire collection is
dropped.  The JSON decoding itself is elided: `data` is the decoded array. -/
def load_activities (data : List RawActivity) : List Activity :=
  match traverseOpt parseActivity data with
  | some acts => acts
  | none => []

/-- An activity record as written to the JSON file by `save_activities`:
the date fields formatted to strings. -/
structure SavedActivity where
  id : String
  name : String
  start_date : String
  end_date : String
  category : String
  priority : String
  description : String
  created_at : String
deriving DecidableEq, Repr

/-- The body of the loop of `save_activities`: `activity.copy()` followed by
the three strftime field overwrites on the copy.  The original record is
not touched, which in this embedding shows up as the function building a
fresh `SavedActivity` from the fields of `activity`. -/
def activity_copy_serialized (activity : Activity) : SavedActivity :=
  { id := activity.id, name := activity.name,
    start_date := formatDate activity.start_date,
    end_date := formatDate activity.end_date,
    category := activity.category, priority := activity.priority,
    description := activity.description,
    created_at := formatDateTime activity.created_at }

/-- Function `save_activities` (src/STP_planner.py lines 64-81): builds
`data_to_save` by appending a field-converted copy of each record, writes
it out, and leaves the in-memory collection untouched.  The pair returned
is (in-memory collection after the call, data written to the file). -/
def save_activities (activities : List Activity) :
    List Activity × List SavedActivity :=
  let data_to_save := activities.foldl
    (fun acc activity => acc ++ [activity_copy_serialized activity]) []
  (activities, data_to_save)

/-! ## CategoryStore -/

/-- Category collection: a Python dict preserved as an insertion-ordered
association list with unique keys, mapping category name to hex color. -/
def Categories := List (String × String)

/-- Lookup `dict.get(category, default)` on the categories dict. -/
def dictGet (k : String) : List (String × String) → Option String
  | [] => none
  | (k2, v) :: rest => if k2 = k then some v else dictGet k rest

/-- Function `get_color_for_activity` (src/STP_planner.py lines 94-95):
`categories_dict.get(category, "#6C5CE7")`. -/
def get_color_for_activity (category : String)
    (categories_dict : List (String × String)) : String :=
  (dictGet category categories_dict).getD "#6C5CE7"

/-- The category delete handler (src/STP_planner.py lines 133-139): delete
the entry only when more than one category exists, otherwise show the
error message (Must have at least one category!) and leave the dict alone.  The
returned flag is true exactly when the deletion happened. -/
def delete_category (categories : List (String × String)) (cat_name : String) :
    List (String × String) × Bool :=
  if 1 < categories.length then
    (categories.eraseP (fun p => decide (p.1 = cat_name)), true)
  else
    (categories, false)

/-! ## ActivityStore handlers -/

/-- The add-activity form handler (src/STP_planner.py lines 183-204):
`if activity_name and start_date <= end_date` append a fresh record built
from the form fields, a fresh uuid and the clock reading, else show an
error and leave the collection alone.  `freshId` and `now` stand for
`str(uuid.uuid4())` and `datetime.now()`. -/
def add_activity (activities : List Activity) (activity_name : String)
    (start_date end_date : Date) (activity_category priority descr : String)
    (freshId : String) (now : DateTime) : List Activity × Bool :=
  if activity_name ≠ "" ∧ dateLe start_date end_date then
    (activities ++ [{ id := freshId, name := activity_name,
                      start_date := start_date, end_date := end_date,
                      category := activity_category, priority := priority,
                      description := descr, created_at := now }], true)
  else
    (activities, false)

/-- The record update applied by the edit-form loop: walk the list, rewrite
the six mutable fields of the first record whose id matches, then break. -/
def update_first (aid n2 : String) (s2 e2 : Date) (c2 p2 d2 : String) :
    List Activity → List Activity
  | [] => []
  | a :: rest =>
    if a.id = aid then
      { a with name := n2, start_date := s2, end_date := e2,
               category := c2, priority := p2, description := d2 } :: rest
    else
      a :: update_first aid n2 s2 e2 c2 p2 d2 rest

/-- The edit-form save handler (src/STP_planner.py lines 368-391): same
validation guard as add; on success rewrites the mutable fields of the
record with the edited id in place and saves, else shows an error and
changes nothing. -/
def edit_save (activities : List Activity) (aid : String) (edit_name : String)
    (edit_start edit_end : Date) (edit_category edit_priority edit_descr : String) :
    List Activity × Bool :=
  if edit_name ≠ "" ∧ dateLe edit_start edit_end then
    (update_first aid edit_name edit_start edit_end edit_category
      edit_priority edit_descr activities, true)
  else
    (activities, false)

/-- Order on activities used by the timeline and the list view:
`sorted(st.session_state.activities, key=lambda x: x["start_date"])`
compares the start dates. -/
def actLe (a b : Activity) : Prop := dateLe a.start_date b.start_date

instance (a b : Activity) : Decidable (actLe a b) := by
  unfold actLe; exact inferInstance

instance : IsTotal Activity actLe :=
  ⟨fun a b => dateLe_total a.start_date b.start_date⟩

instance : IsTrans Activity actLe :=
  ⟨fun _ _ _ h1 h2 => dateLe_trans h1 h2⟩

/-- Computation of `sorted_activities` (src/STP_planner.py lines 213-214): Python sorted
is a stable sort; it is embedded as insertion sort, the canonical stable
sort, on the start-date order. -/
def sorted_activities (activities : List Activity) : List Activity :=
  activities.insertionSort actLe

/-! ## ImportExportEngine: the CSV import handler

The handler (src/STP_planner.py lines 435-460) reads the upload with
`pd.read_csv`, then converts the `start_date` and `end_date` columns with
`pd.to_datetime(...).dt.date`, all inside one try/except that shows a
single error message.  Pandas semantics embedded here:

* an empty CSV cell is read as NaN and `pd.to_datetime` turns it into NaT
  (a missing date), raising nothing;
* a non-empty string that does not parse as a date makes `pd.to_datetime`
  raise, which the surrounding except turns into an aborted import.

The `id` column default (fresh uuids) and the `created_at` column default
(`datetime.now()`), which apply per missing column rather than per cell,
do not bear on any claim and are left out of the row shape. -/

/-- A date cell after `pd.to_datetime(...).dt.date`: either NaT or a date. -/
inductive PandasDate where
  | naT : PandasDate
  | val : Date → PandasDate
deriving DecidableEq, Repr

/-- Conversion `pd.to_datetime` on one cell of a date column (`none` input = empty
cell = NaN).  Returns `none` when pandas raises. -/
def pdToDate (cell : Option String) : Option PandasDate :=
  match cell with
  | none => some PandasDate.naT
  | some s => (parseDate s).map PandasDate.val

/-- One data row of the uploaded CSV; the date cells may be empty. -/
structure CSVRow where
  name : String
  start_date : Option String
  end_date : Option String
  category : String
  priority : String
  description : String
deriving DecidableEq, Repr

/-- One element of `import_df.to_dict("records")` after the column
conversions: the date fields hold dates or NaT. -/
structure ImportedActivity where
  name : String
  start_date : PandasDate
  end_date : PandasDate
  category : String
  priority : String
  description : String
deriving DecidableEq, Repr

/-- The date-column conversion restricted to one row.  Converting column
by column or row by row gives the same all-or-nothing outcome, because a
single exception anywhere aborts the whole block either way. -/
def convertRow (r : CSVRow) : Option ImportedActivity :=
  match pdToDate r.start_date, pdToDate r.end_date with
  | some s, some e =>
    some { name := r.name, start_date := s, end_date := e,
           category := r.category, priority := r.priority,
           description := r.description }
  | _, _ => none

/-- The CSV import handler: the whole conversion runs inside one
try/except, so any raising cell aborts the import with a single error
message and nothing is imported; otherwise every row is imported (the
confirm button then appends them all to the session collection). -/
def import_csv (rows : List CSVRow) : Except String (List ImportedActivity) :=
  match traverseOpt convertRow rows with
  | some out => Except.ok out
  | none => Except.error ("Error importing CSV")

/-! ## Helper lemmas about the all-or-nothing traversal -/

theorem traverseOpt_eq_none {f : α → Option β} {l : List α} (x : α)
    (hx : x ∈ l) (hfx : f x = none) : traverseOpt f l = none := by
  induction l with
  | nil => cases hx
  | cons y ys ih =>
    rcases List.mem_cons.mp hx with h | h
    · subst h
      rw [traverseOpt, hfx]
    · rw [traverseOpt, ih h]
      cases f y <;> rfl

theorem traverseOpt_eq_some {f : α → Option β} {l : List α}
    (h : ∀ x ∈ l, f x ≠ none) :
    ∃ ys, traverseOpt f l = some ys ∧ ys.length = l.length := by
  induction l with
  | nil => exact ⟨[], rfl, rfl⟩
  | cons x xs ih =>
    obtain ⟨y, hy⟩ := Option.ne_none_iff_exists'.mp
      (h x (List.mem_cons_self x xs))
    obtain ⟨ys, hys, hlen⟩ := ih (fun z hz => h z (List.mem_cons_of_mem x hz))
    refine ⟨y :: ys, ?_, by simp [hlen]⟩
    rw [traverseOpt, hy, hys]

/-! ## Concrete fixtures used by counterexamples and witnesses -/

/-- A well-formed stored record. -/
def rawGood : RawActivity :=
  { id := "a1", name := "Alpha", start_date := "2024-01-05",
    end_date := "2024-01-06", category := "Work", priority := "High",
    description := "", created_at := "2024-01-01 10:00:00" }

/-- The in-memory activity that `rawGood` converts to. -/
def actGood : Activity :=
  { id := "a1", name := "Alpha", start_date := ⟨2024, 1, 5⟩,
    end_date := ⟨2024, 1, 6⟩, category := "Work", priority := "High",
    description := "", created_at := ⟨⟨2024, 1, 1⟩, 10, 0, 0⟩ }

/-- A second in-memory activity, used by the edit-form witness. -/
def actB : Activity :=
  { id := "b1", name := "Bravo", start_date := ⟨2024, 2, 1⟩,
    end_date := ⟨2024, 2, 3⟩, category := "Personal", priority := "Low",
    description := "", created_at := ⟨⟨2024, 1, 2⟩, 9, 0, 0⟩ }

/-- A corrupt stored record: its start_date does not parse. -/
def rawBadStart : RawActivity :=
  { id := "a2", name := "Beta", start_date := "not-a-date",
    end_date := "2024-01-06", category := "Work", priority := "Low",
    description := "", created_at := "2024-01-01 10:00:00" }

/-- A stored record whose dates are fine but whose created_at does not
parse. -/
def rawBadCreated : RawActivity :=
  { id := "a3", name := "Gamma", start_date := "2024-01-05",
    end_date := "2024-01-06", category := "Work", priority := "High",
    description := "", created_at := "not a datetime" }

/-- CSV fixture rows: row 1 and row 3 are fully well formed. -/
def csvRow1 : CSVRow :=
  { name := "A", start_date := some "2024-01-01",
    end_date := some "2024-01-02", category := "Work", priority := "High",
    description := "" }

/-- Row 2 of the tolerant-import scenario: empty end_date cell. -/
def csvRow2Empty : CSVRow :=
  { name := "B", start_date := some "2024-01-03", end_date := none,
    category := "Work", priority := "High", description := "" }

/-- A row whose end_date cell holds a non-empty unparseable string. -/
def csvRow2Bad : CSVRow :=
  { name := "B", start_date := some "2024-01-03",
    end_date := some "notadate", category := "Work", priority := "High",
    description := "" }

def csvRow3 : CSVRow :=
  { name := "C", start_date := some "2024-01-04",
    end_date := some "2024-01-05", category := "Work", priority := "High",
    description := "" }

/-! ## Claim C1 -/

/-- C1 counterexample: the claim says a single corrupt row never causes
the whole collection to be dropped, so on the two-record store holding
`rawGood` and `rawBadStart` the load should return the well-formed
converted record `actGood`.  The code returns the empty list: the one
try/except around the conversion loop drops the entire collection. -/
theorem load_activities_c1_counterexample :
    parseActivity rawGood = some actGood ∧
    load_activities [rawGood, rawBadStart] = [] := by decide

/-- C1 (amended): `load_activities` is all-or-nothing.  If any stored
record fails date parsing (start_date, end_date or created_at), the
exception is caught at collection level and the whole load returns the
empty list, so well-formed records in the same store are dropped too. -/
theorem load_activities_c1_amended (data : List RawActivity)
    (r : RawActivity) (hr : r ∈ data) (hbad : parseActivity r = none) :
    load_activities data = [] := by
  rw [load_activities, traverseOpt_eq_none r hr hbad]

/-- C1 amended, instantiated: a store with one good and one corrupt
record loads as the empty collection. -/
theorem load_activities_c1_amended_witness :
    load_activities [rawGood, rawBadStart] = [] :=
  load_activities_c1_amended [rawGood, rawBadStart] rawBadStart
    (by decide) (by decide)

/-! ## Claim C9 -/

theorem parseActivity_none_of_createdAt {r : RawActivity}
    (h : parseDateTime r.created_at = none) : parseActivity r = none := by
  rw [parseActivity, h]
  cases parseDate r.start_date <;> cases parseDate r.end_date <;> rfl

/-- C9 counterexample: the claim says a created_at parse failure during
load is repaired by substituting the current time, so loading the store
holding only `rawBadCreated` (valid dates, corrupt created_at) should
return one record.  The code returns the empty list: no substitution
happens in `load_activities`; the ValueError from the created_at strptime
is caught by the same collection-level except and everything is dropped. -/
theorem load_activities_c9_counterexample :
    parseDate rawBadCreated.start_date = some ⟨2024, 1, 5⟩ ∧
    parseDate rawBadCreated.end_date = some ⟨2024, 1, 6⟩ ∧
    parseDateTime rawBadCreated.created_at = none ∧
    load_activities [rawBadCreated] = [] := by decide

/-- C9 (amended): a record whose created_at fails datetime parsing during
load is not repaired with the current time; the failure is caught at
collection level and the whole collection is dropped.  (The only
current-time substitution in the code is the CSV import default for a
missing created_at column, not a per-record parse fallback.) -/
theorem load_activities_c9_amended (data : List RawActivity)
    (r : RawActivity) (hr : r ∈ data)
    (hbad : parseDateTime r.created_at = none) :
    load_activities data = [] := by
  rw [load_activities,
    traverseOpt_eq_none r hr (parseActivity_none_of_createdAt hbad)]

/-- C9 amended, instantiated at the concrete corrupt record. -/
theorem load_activities_c9_amended_witness :
    load_activities [rawGood, rawBadCreated] = [] :=
  load_activities_c9_amended [rawGood, rawBadCreated] rawBadCreated
    (by decide) (by decide)

/-! ## Claim C2 -/

/-- C2 counterexample: the claim says a CSV with 3 rows where row 2 has an
empty end_date yields 2 imported activities and 1 recorded row-level
error.  The code yields 3 imported activities (row 2 with a NaT end date)
and records nothing; and when row 2 instead holds an unparseable string,
the whole import aborts with a single error and 0 activities, never 2. -/
theorem import_csv_c2_counterexample :
    import_csv [csvRow1, csvRow2Empty, csvRow3] =
      Except.ok
        [{ name := "A", start_date := PandasDate.val ⟨2024, 1, 1⟩,
           end_date := PandasDate.val ⟨2024, 1, 2⟩, category := "Work",
           priority := "High", description := "" },
         { name := "B", start_date := PandasDate.val ⟨2024, 1, 3⟩,
           end_date := PandasDate.naT, category := "Work",
           priority := "High", description := "" },
         { name := "C", start_date := PandasDate.val ⟨2024, 1, 4⟩,
           end_date := PandasDate.val ⟨2024, 1, 5⟩, category := "Work",
           priority := "High", description := "" }] ∧
    import_csv [csvRow1, csvRow2Bad, csvRow3] =
      Except.error ("Error importing CSV") := ⟨rfl, rfl⟩

/-- C2 (amended): the import converts the date columns wholesale under one
try/except, so rows are not parsed independently and no row-level error
list exists.  If every date cell is empty or parseable the import
succeeds and imports every row (an empty cell becomes a NaT date, it is
not skipped); if any date cell holds an unparseable string then the
entire import aborts with a single error and imports nothing. -/
theorem import_csv_c2_amended (rows : List CSVRow) :
    ((∀ r ∈ rows, pdToDate r.start_date ≠ none ∧ pdToDate r.end_date ≠ none) →
      ∃ out, import_csv rows = Except.ok out ∧ out.length = rows.length) ∧
    (∀ r ∈ rows, pdToDate r.start_date = none ∨ pdToDate r.end_date = none →
      import_csv rows = Except.error ("Error importing CSV")) := by
  constructor
  · intro h
    have hconv : ∀ r ∈ rows, convertRow r ≠ none := by
      intro r hr
      obtain ⟨hs, he⟩ := h r hr
      obtain ⟨s, hs2⟩ := Option.ne_none_iff_exists'.mp hs
      obtain ⟨e, he2⟩ := Option.ne_none_iff_exists'.mp he
      rw [convertRow, hs2, he2]
      exact fun hcontra => Option.noConfusion hcontra
    obtain ⟨ys, hys, hlen⟩ := traverseOpt_eq_some hconv
    exact ⟨ys, by rw [import_csv, hys], hlen⟩
  · intro r hr hbad
    have hconv : convertRow r = none := by
      rcases hbad with h | h <;>
        (rw [convertRow, h] <;>
          first
          | rfl
          | (cases pdToDate r.end_date <;> rfl)
          | (cases pdToDate r.start_date <;> rfl))
    rw [import_csv, traverseOpt_eq_none r hr hconv]

/-- C2 amended, instantiated: the all-parseable two-row table imports both
rows; the table with the unparseable cell aborts with the single error. -/
theorem import_csv_c2_amended_witness :
    (∃ out, import_csv [csvRow1, csvRow3] = Except.ok out ∧ out.length = 2) ∧
    import_csv [csvRow1, csvRow2Bad, csvRow3] =
      Except.error ("Error importing CSV") :=
  ⟨(import_csv_c2_amended [csvRow1, csvRow3]).1 (by decide),
   (import_csv_c2_amended [csvRow1, csvRow2Bad, csvRow3]).2 csvRow2Bad
     (by decide) (Or.inr (by decide))⟩

/-! ## Claim C3 -/

theorem length_eraseP_ge (p : α → Bool) (l : List α) :
    l.length - 1 ≤ (l.eraseP p).length := by
  induction l with
  | nil => simp
  | cons a l ih =>
    rw [List.eraseP_cons]
    cases h : p a <;> simp [h] <;> omega

/-- C3: removing a category fails (error shown, dict untouched) exactly
when at most one category remains; with more than one it deletes the
entry; hence a nonempty category collection never reaches zero entries
through the delete handler. -/
theorem delete_category_c3 (categories : List (String × String))
    (cat_name : String) :
    (categories.length = 1 →
      delete_category categories cat_name = (categories, false)) ∧
    (1 < categories.length →
      delete_category categories cat_name =
        (categories.eraseP (fun p => decide (p.1 = cat_name)), true)) ∧
    (1 ≤ categories.length →
      1 ≤ (delete_category categories cat_name).1.length) := by
  refine ⟨fun h1 => ?_, fun h2 => ?_, fun h3 => ?_⟩
  · rw [delete_category, if_neg (by omega)]
  · rw [delete_category, if_pos h2]
  · by_cases h : 1 < categories.length
    · have := length_eraseP_ge (fun p => decide (p.1 = cat_name)) categories
      simp only [delete_category, if_pos h]
      omega
    · simp only [delete_category, if_neg h]
      exact h3

/-- C3 instantiated: deleting the only category is refused and leaves the
dict unchanged; deleting one of two removes exactly that entry and one
remains. -/
theorem delete_category_c3_witness :
    delete_category [("Work", "#FF6B6B")] "Work" =
      ([("Work", "#FF6B6B")], false) ∧
    delete_category [("Work", "#FF6B6B"), ("Personal", "#4ECDC4")] "Work" =
      ([("Personal", "#4ECDC4")], true) ∧
    1 ≤ (delete_category [("Work", "#FF6B6B"), ("Personal", "#4ECDC4")]
          "Work").1.length := by
  refine ⟨(delete_category_c3 _ _).1 (by decide), ?_,
    (delete_category_c3 _ _).2.2 (by decide)⟩
  rw [(delete_category_c3 [("Work", "#FF6B6B"), ("Personal", "#4ECDC4")]
    "Work").2.1 (by decide)]
  decide

/-! ## Claim C4 -/

/-- C4: the add handler rejects an empty name or start after end and
leaves the collection unchanged; otherwise it appends exactly one record
carrying the form fields, the freshly generated id and the clock reading
as created_at. -/
theorem add_activity_c4 (activities : List Activity)
    (activity_name : String) (start_date end_date : Date)
    (activity_category priority descr freshId : String) (now : DateTime) :
    ((activity_name = "" ∨ dateLt end_date start_date) →
      add_activity activities activity_name start_date end_date
        activity_category priority descr freshId now = (activities, false)) ∧
    (activity_name ≠ "" → dateLe start_date end_date →
      add_activity activities activity_name start_date end_date
        activity_category priority descr freshId now =
      (activities ++ [{ id := freshId, name := activity_name,
                        start_date := start_date, end_date := end_date,
                        category := activity_category, priority := priority,
                        description := descr, created_at := now }], true)) := by
  constructor
  · intro h
    rw [add_activity, if_neg]
    rintro ⟨hne, hle⟩
    rcases h with h | h
    · exact hne h
    · exact (not_dateLe_iff.mpr h) hle
  · intro h1 h2
    rw [add_activity, if_pos ⟨h1, h2⟩]

/-- C4 instantiated: empty name is rejected with no change; a valid add
appends the one new record. -/
theorem add_activity_c4_witness :
    add_activity [] "" ⟨2024, 1, 1⟩ ⟨2024, 1, 2⟩ "Work" "High" "" "id1"
      ⟨⟨2024, 1, 1⟩, 0, 0, 0⟩ = ([], false) ∧
    add_activity [] "Run" ⟨2024, 1, 1⟩ ⟨2024, 1, 2⟩ "Work" "High" "" "id1"
      ⟨⟨2024, 1, 1⟩, 0, 0, 0⟩ =
      ([{ id := "id1", name := "Run", start_date := ⟨2024, 1, 1⟩,
          end_date := ⟨2024, 1, 2⟩, category := "Work", priority := "High",
          description := "", created_at := ⟨⟨2024, 1, 1⟩, 0, 0, 0⟩ }],
        true) :=
  ⟨(add_activity_c4 [] "" ⟨2024, 1, 1⟩ ⟨2024, 1, 2⟩ "Work" "High" "" "id1"
      ⟨⟨2024, 1, 1⟩, 0, 0, 0⟩).1 (Or.inl rfl),
   (add_activity_c4 [] "Run" ⟨2024, 1, 1⟩ ⟨2024, 1, 2⟩ "Work" "High" "" "id1"
      ⟨⟨2024, 1, 1⟩, 0, 0, 0⟩).2 (by decide) (by decide)⟩

/-! ## Claim C6 -/

theorem dictGet_mem {k v : String} :
    ∀ {l : List (String × String)}, (k, v) ∈ l →
      (l.map Prod.fst).Nodup → dictGet k l = some v := by
  intro l
  induction l with
  | nil => intro h; cases h
  | cons kv rest ih =>
    intro hmem hnodup
    obtain ⟨k2, v2⟩ := kv
    rw [dictGet]
    rcases List.mem_cons.mp hmem with h | h
    · injection h with hk hv
      rw [if_pos hk.symm, hv]
    · have hnodup2 : (k2 :: rest.map Prod.fst).Nodup := by
        rw [List.map_cons] at hnodup; exact hnodup
      obtain ⟨hnotin, hrest⟩ := List.nodup_cons.mp hnodup2
      have hk2 : ¬ (k2 = k) := by
        intro he
        apply hnotin
        rw [he]
        exact List.mem_map_of_mem Prod.fst h
      rw [if_neg hk2]
      exact ih h hrest

theorem dictGet_not_mem {k : String} :
    ∀ {l : List (String × String)}, (∀ v, (k, v) ∉ l) → dictGet k l = none := by
  intro l
  induction l with
  | nil => intro _; rfl
  | cons kv rest ih =>
    intro h
    obtain ⟨k2, v2⟩ := kv
    rw [dictGet]
    have hk2 : ¬ (k2 = k) := by
      intro he
      exact h v2 (by rw [he]; exact List.mem_cons_self _ _)
    rw [if_neg hk2]
    exact ih (fun v hv => h v (List.mem_cons_of_mem _ hv))

/-- C6: color resolution returns the stored color when the category is a
key of the dict, the fixed fallback color when it is not, and it never
fails (it is a total function). -/
theorem get_color_c6 (categories_dict : List (String × String))
    (category : String) :
    (∀ color, (category, color) ∈ categories_dict →
      (categories_dict.map Prod.fst).Nodup →
      get_color_for_activity category categories_dict = color) ∧
    ((∀ color, (category, color) ∉ categories_dict) →
      get_color_for_activity category categories_dict = "#6C5CE7") := by
  constructor
  · intro color hmem hnodup
    rw [get_color_for_activity, dictGet_mem hmem hnodup]
    rfl
  · intro h
    rw [get_color_for_activity, dictGet_not_mem h]
    rfl

/-- C6 instantiated on the scenario of the spec: a present category
resolves to its stored color and an absent one to the fallback. -/
theorem get_color_c6_witness :
    get_color_for_activity ("Health") [("Health", "#00FF00")] = "#00FF00" ∧
    get_color_for_activity ("Nonexistent") [("Health", "#00FF00")] =
      "#6C5CE7" :=
  ⟨(get_color_c6 [("Health", "#00FF00")] "Health").1 "#00FF00"
      (by decide) (by decide),
   (get_color_c6 [("Health", "#00FF00")] "Nonexistent").2
      (fun color hmem => by
        rw [List.mem_singleton] at hmem
        exact absurd (congrArg Prod.fst hmem)
          (by decide : ¬ ("Nonexistent" : String) = "Health"))⟩

/-! ## Claim C10 -/

theorem foldl_append_map (f : α → β) :
    ∀ (l : List α) (init : List β),
      l.foldl (fun acc x => acc ++ [f x]) init = init ++ l.map f := by
  intro l
  induction l with
  | nil => intro init; simp
  | cons x xs ih =>
    intro init
    rw [List.foldl_cons, ih, List.map_cons]
    simp

/-- C10: saving leaves the in-memory collection exactly as given (each
record still holds its date objects); the data written out is the list of
field-converted copies, one per record, in order. -/
theorem save_activities_c10 (activities : List Activity) :
    (save_activities activities).1 = activities ∧
    (save_activities activities).2 =
      activities.map activity_copy_serialized ∧
    (save_activities activities).2.length = activities.length := by
  have h2 : (save_activities activities).2 =
      activities.map activity_copy_serialized := by
    show activities.foldl
      (fun acc activity => acc ++ [activity_copy_serialized activity]) [] = _
    rw [foldl_append_map]
    rfl
  exact ⟨rfl, h2, by rw [h2, List.length_map]⟩

/-! ## Claim C5 -/

theorem update_first_eq_set (aid n2 : String) (s2 e2 : Date)
    (c2 p2 d2 : String) (activities : List Activity) :
    ∀ (i : Nat) (hi : i < activities.length),
      (activities.map Activity.id).Nodup →
      (activities.get ⟨i, hi⟩).id = aid →
      update_first aid n2 s2 e2 c2 p2 d2 activities =
        activities.set i
          { activities.get ⟨i, hi⟩ with
            name := n2, start_date := s2, end_date := e2,
            category := c2, priority := p2, description := d2 } := by
  induction activities with
  | nil => intro i hi; simp at hi
  | cons a rest ih =>
    intro i hi hnodup hid
    have hnodup2 : (a.id :: rest.map Activity.id).Nodup := by
      rw [List.map_cons] at hnodup; exact hnodup
    obtain ⟨hnotin, hrest⟩ := List.nodup_cons.mp hnodup2
    match i with
    | 0 =>
      have hid0 : a.id = aid := hid
      rw [update_first, if_pos hid0]
      rfl
    | j + 1 =>
      have hj : j < rest.length := by
        simpa using hi
      have hid2 : (rest.get ⟨j, hj⟩).id = aid := by
        simpa using hid
      have hane : ¬ (a.id = aid) := by
        intro he
        apply hnotin
        rw [he, ← hid2]
        exact List.mem_map_of_mem Activity.id (List.get_mem rest j hj)
      rw [update_first, if_neg hane, ih j hj hrest hid2]
      rfl

/-- C5: with unique ids, a successful save of the edit form rewrites only
the six mutable fields of the record with the edited id: its id and
created_at are kept, the length is unchanged, and every other position of
the collection is untouched. -/
theorem edit_save_c5 (activities : List Activity) (i : Nat)
    (hi : i < activities.length) (aid edit_name : String)
    (edit_start edit_end : Date)
    (edit_category edit_priority edit_descr : String)
    (hnodup : (activities.map Activity.id).Nodup)
    (hid : (activities.get ⟨i, hi⟩).id = aid)
    (hname : edit_name ≠ "") (hle : dateLe edit_start edit_end) :
    edit_save activities aid edit_name edit_start edit_end edit_category
        edit_priority edit_descr =
      (activities.set i
        { id := (activities.get ⟨i, hi⟩).id, name := edit_name,
          start_date := edit_start, end_date := edit_end,
          category := edit_category, priority := edit_priority,
          description := edit_descr,
          created_at := (activities.get ⟨i, hi⟩).created_at }, true) ∧
    (edit_save activities aid edit_name edit_start edit_end edit_category
        edit_priority edit_descr).1.length = activities.length ∧
    ∀ j, j ≠ i →
      (edit_save activities aid edit_name edit_start edit_end edit_category
        edit_priority edit_descr).1[j]? = activities[j]? := by
  have hmain : edit_save activities aid edit_name edit_start edit_end
      edit_category edit_priority edit_descr =
      (activities.set i
        { id := (activities.get ⟨i, hi⟩).id, name := edit_name,
          start_date := edit_start, end_date := edit_end,
          category := edit_category, priority := edit_priority,
          description := edit_descr,
          created_at := (activities.get ⟨i, hi⟩).created_at }, true) := by
    rw [edit_save, if_pos ⟨hname, hle⟩,
      update_first_eq_set aid edit_name edit_start edit_end edit_category
        edit_priority edit_descr activities i hi hnodup hid]
  refine ⟨hmain, ?_, ?_⟩
  · rw [hmain]
    exact List.length_set activities i _
  · intro j hj
    rw [hmain]
    exact List.getElem?_set_ne (Ne.symm hj)

/-- C5 instantiated on a two-record collection: editing the second record
rewrites its mutable fields, keeps its id and created_at, and leaves the
first record in place. -/
theorem edit_save_c5_witness :
    edit_save [actGood, actB] "b1" "Edited" ⟨2024, 2, 5⟩ ⟨2024, 2, 6⟩
        "Work" "High" "d" =
      ([actGood,
        { id := "b1", name := "Edited", start_date := ⟨2024, 2, 5⟩,
          end_date := ⟨2024, 2, 6⟩, category := "Work", priority := "High",
          description := "d", created_at := ⟨⟨2024, 1, 2⟩, 9, 0, 0⟩ }],
        true) ∧
    (edit_save [actGood, actB] "b1" "Edited" ⟨2024, 2, 5⟩ ⟨2024, 2, 6⟩
      "Work" "High" "d").1[0]? = some actGood := by
  have h := edit_save_c5 [actGood, actB] 1 (by decide) "b1" "Edited"
    ⟨2024, 2, 5⟩ ⟨2024, 2, 6⟩ "Work" "High" "d" (by decide) (by decide)
    (by decide) (by decide)
  refine ⟨?_, (h.2.2 0 (by decide)).trans (by decide)⟩
  rw [h.1]
  decide

/-! ## Claim C7 -/

theorem filter_orderedInsert_pos (r : α → α → Prop) [DecidableRel r]
    (p : α → Bool) (a : α) (hpa : p a = true)
    (h : ∀ b, p b = true → r a b) :
    ∀ l : List α, (List.orderedInsert r a l).filter p = a :: l.filter p := by
  intro l
  induction l with
  | nil => simp [List.orderedInsert, List.filter_cons, hpa]
  | cons b l ih =>
    by_cases hr : r a b
    · simp [List.orderedInsert, hr, List.filter_cons, hpa]
    · have hpb : p b = false := by
        cases hb : p b
        · rfl
        · exact absurd (h b hb) hr
      simp [List.orderedInsert, hr, List.filter_cons, hpb, ih]

theorem filter_orderedInsert_neg (r : α → α → Prop) [DecidableRel r]
    (p : α → Bool) (a : α) (hpa : p a = false) :
    ∀ l : List α, (List.orderedInsert r a l).filter p = l.filter p := by
  intro l
  induction l with
  | nil => simp [List.orderedInsert, List.filter_cons, hpa]
  | cons b l ih =>
    by_cases hr : r a b
    · simp [List.orderedInsert, hr, List.filter_cons, hpa]
    · simp [List.orderedInsert, hr, List.filter_cons, ih]

/-- Stability of insertion sort: filtering by any predicate that relates
all its members under `r` commutes with sorting, so elements with equal
keys keep their original relative order. -/
theorem filter_insertionSort (r : α → α → Prop) [DecidableRel r]
    (p : α → Bool) (hp : ∀ x y, p x = true → p y = true → r x y) :
    ∀ l : List α, (l.insertionSort r).filter p = l.filter p := by
  intro l
  induction l with
  | nil => rfl
  | cons a l ih =>
    rw [List.insertionSort]
    by_cases hpa : p a = true
    · rw [filter_orderedInsert_pos r p a hpa (fun b hb => hp a b hpa hb), ih]
      simp [List.filter_cons, hpa]
    · have hpa2 : p a = false := by
        cases hb : p a
        · rfl
        · exact absurd hb hpa
      rw [filter_orderedInsert_neg r p a hpa2, ih]
      simp [List.filter_cons, hpa2]

/-- Activities of the sort-stability scenario of the spec: start dates
Jan 5, Jan 1, Jan 1. -/
def exAct1 : Activity :=
  { id := "1", name := "One", start_date := ⟨2024, 1, 5⟩,
    end_date := ⟨2024, 1, 7⟩, category := "Work", priority := "High",
    description := "", created_at := ⟨⟨2024, 1, 1⟩, 0, 0, 0⟩ }

def exAct2 : Activity :=
  { id := "2", name := "Two", start_date := ⟨2024, 1, 1⟩,
    end_date := ⟨2024, 1, 2⟩, category := "Work", priority := "High",
    description := "", created_at := ⟨⟨2024, 1, 1⟩, 0, 0, 0⟩ }

def exAct3 : Activity :=
  { id := "3", name := "Three", start_date := ⟨2024, 1, 1⟩,
    end_date := ⟨2024, 1, 3⟩, category := "Work", priority := "High",
    description := "", created_at := ⟨⟨2024, 1, 1⟩, 0, 0, 0⟩ }

/-- C7: the displayed order is ascending by start date, a permutation of
the collection, and stable (records with any fixed start date appear in
their original relative order); on the three-record scenario with ids
1, 2, 3 and starts Jan 5, Jan 1, Jan 1 it yields the order 2, 3, 1. -/
theorem sorted_activities_c7 :
    (∀ activities : List Activity,
      List.Sorted actLe (sorted_activities activities) ∧
      List.Perm (sorted_activities activities) activities ∧
      ∀ dd : Date,
        (sorted_activities activities).filter
            (fun a => decide (a.start_date = dd)) =
          activities.filter (fun a => decide (a.start_date = dd))) ∧
    sorted_activities [exAct1, exAct2, exAct3] = [exAct2, exAct3, exAct1] := by
  constructor
  · intro activities
    refine ⟨List.sorted_insertionSort actLe activities,
      List.perm_insertionSort actLe activities, fun dd => ?_⟩
    refine filter_insertionSort actLe _ (fun x y hx hy => ?_) activities
    have hx2 := of_decide_eq_true hx
    have hy2 := of_decide_eq_true hy
    show dateLe x.start_date y.start_date
    rw [hx2, hy2]
    exact dateLe_refl dd
  · decide

/-! ## Claim C8 -/

/-- C8: under the fixed patterns of the codec, formatting then parsing is
the identity on every valid date and on every valid datetime. -/
theorem date_codec_c8 (d : Date) (t : DateTime) :
    (validDate d → parseDate (formatDate d) = some d) ∧
    (validDateTime t → parseDateTime (formatDateTime t) = some t) :=
  ⟨fun h => parseDate_formatDate h, fun h => parseDateTime_formatDateTime h⟩

/-- C8 instantiated at a concrete date and datetime. -/
theorem date_codec_c8_witness :
    parseDate (formatDate ⟨2024, 1, 5⟩) = some ⟨2024, 1, 5⟩ ∧
    parseDateTime (formatDateTime ⟨⟨2024, 1, 5⟩, 10, 30, 0⟩) =
      some ⟨⟨2024, 1, 5⟩, 10, 30, 0⟩ :=
  ⟨(date_codec_c8 ⟨2024, 1, 5⟩ ⟨⟨2024, 1, 5⟩, 10, 30, 0⟩).1 (by decide),
   (date_codec_c8 ⟨2024, 1, 5⟩ ⟨⟨2024, 1, 5⟩, 10, 30, 0⟩).2 (by decide)⟩

end STP
